import Mathlib

/-!
# vt100 key reader (`vendor/github.com/xyproto/vt100/key_unix.go`)

A shallow embedding of the keyboard layer of the vendored `vt100` package:
the `TTY` handle, the decoder `asciiAndKeyCode`, the projections `ASCII`,
`KeyCode`, `Key`, and the blocking helper `WaitForKey`.

The terminal library `github.com/pkg/term` is not part of the file; every
call into it is a field of `TermOps`, so each theorem holds for every
behaviour of the terminal.  Go's package-level variable `lastKey` and the
pointer `*TTY` are passed explicitly as state.
-/

namespace Vt100

/-- Go `byte`. -/
abbrev Byte := Fin 256

/-- The three-byte buffer `bytes := make([]byte, 3)`. -/
abbrev Buf := Fin 3 → Byte

/-- Go `error` values (`none` is `nil` where an `Option GoError` is used). -/
abbrev GoError := String

/-- What one `tty.t.Read(bytes)` reports: the count, the buffer as the call
left it, and the error. -/
structure ReadResult where
  numRead : Int
  bytes : Buf
  err : Option GoError
deriving DecidableEq

/-- The calls `key_unix.go` makes into `github.com/pkg/term`, over a terminal
state `σ`.  `Open` receives the device path and the read timeout; `Read`
receives the buffer it may fill.  Errors of the mode calls are dropped by the
source, so those are state transformers. -/
structure TermOps (σ : Type) where
  Open : String → Int → Except GoError σ
  RawMode : σ → σ
  SetCbreak : σ → σ
  SetReadTimeout : σ → Int → σ
  Restore : σ → σ
  Flush : σ → σ
  Close : σ → σ
  Read : σ → Buf → ReadResult × σ

/-- The value of `defaultTimeout = 10 * time.Millisecond` in nanoseconds. -/
def defaultTimeout : Int := 10 * 1000000

/-- The struct `TTY`: the terminal and the stored `time.Duration`. -/
structure TTY (σ : Type) where
  t : σ
  timeout : Int
deriving DecidableEq

variable {σ : Type}

/-- `NewTTY`: open `/dev/tty` with the default timeout. -/
def NewTTY (ops : TermOps σ) : Except GoError (TTY σ) :=
  match ops.Open "/dev/tty" defaultTimeout with
  | .error e => .error e
  | .ok t => .ok ⟨t, defaultTimeout⟩

/-- `(*TTY).RawMode`. -/
def RawMode (ops : TermOps σ) (tty : TTY σ) : TTY σ :=
  { tty with t := ops.RawMode tty.t }

/-- `(*TTY).NoBlock`. -/
def NoBlock (ops : TermOps σ) (tty : TTY σ) : TTY σ :=
  { tty with t := ops.SetCbreak tty.t }

/-- `(*TTY).SetTimeout`: `tty.timeout = d`, then
`tty.t.SetReadTimeout(tty.timeout)`.  The Go method has no result. -/
def SetTimeout (ops : TermOps σ) (tty : TTY σ) (d : Int) : TTY σ :=
  { t := ops.SetReadTimeout tty.t d, timeout := d }

/-- `(*TTY).Restore`. -/
def Restore (ops : TermOps σ) (tty : TTY σ) : TTY σ :=
  { tty with t := ops.Restore tty.t }

/-- `(*TTY).Close`: restore, then close. -/
def Close (ops : TermOps σ) (tty : TTY σ) : TTY σ :=
  { tty with t := ops.Close (ops.Restore tty.t) }

/-- The result triple of `asciiAndKeyCode` with the handle as the call left
it. -/
structure Decoded (σ : Type) where
  ascii : Int
  keyCode : Int
  err : Option GoError
  tty : TTY σ
deriving DecidableEq

/-- The handle right before `tty.t.Read(bytes)` in `asciiAndKeyCode`:
`tty.RawMode(); tty.NoBlock(); tty.SetTimeout(tty.timeout)`. -/
def beforeRead (ops : TermOps σ) (tty : TTY σ) : TTY σ :=
  let tty := RawMode ops tty
  let tty := NoBlock ops tty
  SetTimeout ops tty tty.timeout

/-- The outcome of the read that `asciiAndKeyCode ops tty` performs, on a
fresh zeroed buffer. -/
def readOutcome (ops : TermOps σ) (tty : TTY σ) : ReadResult :=
  (ops.Read (beforeRead ops tty).t (fun _ => 0)).1

/-- The handle `asciiAndKeyCode` leaves: the terminal after the read, restored
and flushed, with the stored timeout as it was. -/
def afterRead (ops : TermOps σ) (tty : TTY σ) : TTY σ :=
  ⟨ops.Flush (ops.Restore (ops.Read (beforeRead ops tty).t (fun _ => 0)).2), tty.timeout⟩

/-- `asciiAndKeyCode`.  The named results `ascii` and `keyCode` start at 0
and are returned as they stand at each `return`. -/
def asciiAndKeyCode (ops : TermOps σ) (tty : TTY σ) : Decoded σ :=
  let bytes : Buf := fun _ => 0
  let tty := RawMode ops tty
  let tty := NoBlock ops tty
  let tty := SetTimeout ops tty tty.timeout
  let r := ops.Read tty.t bytes
  let numRead := r.1.numRead
  let bytes := r.1.bytes
  let err := r.1.err
  let tty := { tty with t := r.2 }
  let tty := Restore ops tty
  let tty := { tty with t := ops.Flush tty.t }
  if err ≠ none then
    ⟨0, 0, err, tty⟩
  else if numRead = 3 ∧ bytes 0 = 27 ∧ bytes 1 = 91 then
    if bytes 2 = 65 then
      ⟨0, 38, err, tty⟩
    else if bytes 2 = 66 then
      ⟨0, 40, err, tty⟩
    else if bytes 2 = 67 then
      ⟨0, 39, err, tty⟩
    else if bytes 2 = 68 then
      ⟨0, 37, err, tty⟩
    else
      ⟨0, 0, err, tty⟩
  else if numRead = 1 then
    ⟨((bytes 0).val : Int), 0, err, tty⟩
  else
    ⟨0, 0, err, tty⟩

/-- `(*TTY).ASCII`: the returned int and the handle afterwards. -/
def ASCII (ops : TermOps σ) (tty : TTY σ) : Int × TTY σ :=
  let d := asciiAndKeyCode ops tty
  if d.err ≠ none then (0, d.tty) else (d.ascii, d.tty)

/-- `(*TTY).KeyCode`: the returned int and the handle afterwards. -/
def KeyCode (ops : TermOps σ) (tty : TTY σ) : Int × TTY σ :=
  let d := asciiAndKeyCode ops tty
  if d.err ≠ none then (0, d.tty) else (d.keyCode, d.tty)

/-- The result of `(*TTY).Key`: the returned int, the package variable
`lastKey` and the handle after the call. -/
structure KeyRet (σ : Type) where
  ret : Int
  lastKey : Int
  tty : TTY σ
deriving DecidableEq

/-- `(*TTY).Key`, with the package variable `lastKey` passed in. -/
def Key (ops : TermOps σ) (lastKey : Int) (tty : TTY σ) : KeyRet σ :=
  let d := asciiAndKeyCode ops tty
  if d.err ≠ none then
    ⟨0, 0, d.tty⟩
  else if d.keyCode ≠ 0 then
    if d.keyCode = lastKey then
      ⟨0, 0, d.tty⟩
    else
      ⟨d.keyCode, d.keyCode, d.tty⟩
  else if d.ascii = lastKey then
    ⟨0, 0, d.tty⟩
  else
    ⟨d.ascii, d.ascii, d.tty⟩

/-- The values returned by `n` successive calls of `Key`, starting from the
given `lastKey` and handle. -/
def keyRun (ops : TermOps σ) : Nat → Int → TTY σ → List Int
  | 0, _, _ => []
  | n + 1, lastKey, tty =>
    let k := Key ops lastKey tty
    k.ret :: keyRun ops n k.lastKey k.tty

/-- The state (`lastKey`, handle) after `n` successive calls of `Key`. -/
def keyState (ops : TermOps σ) : Nat → Int → TTY σ → Int × TTY σ
  | 0, lastKey, tty => (lastKey, tty)
  | n + 1, lastKey, tty =>
    let k := Key ops lastKey tty
    keyState ops n k.lastKey k.tty

/-- How a call of `WaitForKey` ends: it returns (with `lastKey` and the
closed handle), it panics, or the loop is still running when the fuel is
spent. -/
inductive WaitResult (σ : Type) where
  | returned (lastKey : Int) (tty : TTY σ)
  | panicked (e : GoError)
  | running
deriving DecidableEq

/-- The `for { switch r.Key() { case 27, 13, 32: return } }` loop of
`WaitForKey`, run for at most `fuel` iterations: the state at the `return`,
or `none` while the loop is still running. -/
def waitLoop (ops : TermOps σ) : Nat → Int → TTY σ → Option (Int × TTY σ)
  | 0, _, _ => none
  | fuel + 1, lastKey, r =>
    let k := Key ops lastKey r
    if k.ret = 27 ∨ k.ret = 13 ∨ k.ret = 32 then
      some (k.lastKey, k.tty)
    else
      waitLoop ops fuel k.lastKey k.tty

/-- `WaitForKey`, with the loop bounded by `fuel`.  When `NewTTY` fails the
function panics (`panic(err)`, and the deferred `r.Close()` runs on a nil
handle); otherwise the deferred `r.Close()` runs at the `return`. -/
def WaitForKey (ops : TermOps σ) (fuel : Nat) (lastKey : Int) : WaitResult σ :=
  match NewTTY ops with
  | .error e => .panicked e
  | .ok r =>
    match waitLoop ops fuel lastKey r with
    | none => .running
    | some (lk, r) => .returned lk (Close ops r)

/-- A terminal that replays a list of read outcomes: each `Read` hands out
the next entry; once the list is spent a `Read` times out (zero bytes, the
buffer untouched, no error).  The mode calls leave the list alone. -/
def scripted (script : List ReadResult) : TermOps (List ReadResult) where
  Open := fun _ _ => .ok script
  RawMode := id
  SetCbreak := id
  SetReadTimeout := fun s _ => s
  Restore := id
  Flush := id
  Close := id
  Read := fun s buf =>
    match s with
    | [] => (⟨0, buf, none⟩, [])
    | r :: rest => (r, rest)

/-- A successful read of `n` bytes leaving `bytes` in the buffer. -/
def okRead (n : Int) (bytes : Buf) : ReadResult := ⟨n, bytes, none⟩

/-- A successful one-byte read of `b` (the unread positions stay zero). -/
def oneByte (b : Byte) : ReadResult := okRead 1 ![b, 0, 0]

/-- A successful three-byte read of `ESC [ c`. -/
def csi (c : Byte) : ReadResult := okRead 3 ![27, 91, c]

/-- The read is one of the four arrow sequences `27, 91, 65..68`. -/
def isArrow (r : ReadResult) : Prop :=
  r.numRead = 3 ∧ r.bytes 0 = 27 ∧ r.bytes 1 = 91 ∧
    (r.bytes 2 = 65 ∨ r.bytes 2 = 66 ∨ r.bytes 2 = 67 ∨ r.bytes 2 = 68)

instance (r : ReadResult) : Decidable (isArrow r) := by
  unfold isArrow; infer_instance

/-- The read is a keypress the decoder reports: no error, and either one byte
other than NUL or one of the four arrow sequences. -/
def isKey (r : ReadResult) : Prop :=
  r.err = none ∧ ((r.numRead = 1 ∧ r.bytes 0 ≠ 0) ∨ isArrow r)

/-- The key a decoded read stands for in `Key`: `keyCode` when it is
non-zero, `ascii` otherwise. -/
def keyOf (d : Decoded σ) : Int :=
  if d.keyCode ≠ 0 then d.keyCode else d.ascii

/-- The handle a scripted terminal yields from `NewTTY`. -/
def scriptTTY (script : List ReadResult) : TTY (List ReadResult) :=
  ⟨script, defaultTimeout⟩

/-- The codes on which `WaitForKey` returns: `case 27, 13, 32`. -/
def isStop (k : Int) : Prop := k = 27 ∨ k = 13 ∨ k = 32

instance (k : Int) : Decidable (isStop k) := by
  unfold isStop; infer_instance

/-! ## The decoder in terms of the read it performs -/

section Decoder

variable (ops : TermOps σ) (tty : TTY σ)

lemma asciiAndKeyCode_tty : (asciiAndKeyCode ops tty).tty = afterRead ops tty := by
  unfold asciiAndKeyCode
  simp only []
  split_ifs <;> rfl

lemma asciiAndKeyCode_err :
    (asciiAndKeyCode ops tty).err = (readOutcome ops tty).err := by
  unfold asciiAndKeyCode
  simp only []
  split_ifs <;> rfl

lemma asciiAndKeyCode_of_err (h : (readOutcome ops tty).err ≠ none) :
    (asciiAndKeyCode ops tty).ascii = 0 ∧ (asciiAndKeyCode ops tty).keyCode = 0 := by
  have h' : (ops.Read (beforeRead ops tty).t (fun _ => 0)).1.err ≠ none := h
  unfold beforeRead at h'
  unfold asciiAndKeyCode
  simp only []
  rw [if_pos h']
  exact ⟨rfl, rfl⟩

lemma asciiAndKeyCode_one (h : (readOutcome ops tty).err = none)
    (h1 : (readOutcome ops tty).numRead = 1) :
    (asciiAndKeyCode ops tty).ascii = (((readOutcome ops tty).bytes 0).val : Int) ∧
      (asciiAndKeyCode ops tty).keyCode = 0 := by
  have h' : ¬ (ops.Read (beforeRead ops tty).t (fun _ => 0)).1.err ≠ none := not_not.mpr h
  have h1' : (ops.Read (beforeRead ops tty).t (fun _ => 0)).1.numRead = 1 := h1
  have h3' : ¬ ((ops.Read (beforeRead ops tty).t (fun _ => 0)).1.numRead = 3 ∧
      (ops.Read (beforeRead ops tty).t (fun _ => 0)).1.bytes 0 = 27 ∧
      (ops.Read (beforeRead ops tty).t (fun _ => 0)).1.bytes 1 = 91) := by
    rintro ⟨h3, -⟩
    rw [h1'] at h3
    exact absurd h3 (by decide)
  unfold beforeRead at h' h1' h3'
  unfold asciiAndKeyCode readOutcome beforeRead
  simp only []
  rw [if_neg h', if_neg h3', if_pos h1']
  exact ⟨rfl, rfl⟩

lemma asciiAndKeyCode_csi (h : (readOutcome ops tty).err = none)
    (h3 : (readOutcome ops tty).numRead = 3)
    (h0 : (readOutcome ops tty).bytes 0 = 27) (h1 : (readOutcome ops tty).bytes 1 = 91) :
    (asciiAndKeyCode ops tty).ascii = 0 ∧
      (asciiAndKeyCode ops tty).keyCode =
        if (readOutcome ops tty).bytes 2 = 65 then 38
        else if (readOutcome ops tty).bytes 2 = 66 then 40
        else if (readOutcome ops tty).bytes 2 = 67 then 39
        else if (readOutcome ops tty).bytes 2 = 68 then 37
        else 0 := by
  have h' : ¬ (ops.Read (beforeRead ops tty).t (fun _ => 0)).1.err ≠ none := not_not.mpr h
  have h3' : (ops.Read (beforeRead ops tty).t (fun _ => 0)).1.numRead = 3 ∧
      (ops.Read (beforeRead ops tty).t (fun _ => 0)).1.bytes 0 = 27 ∧
      (ops.Read (beforeRead ops tty).t (fun _ => 0)).1.bytes 1 = 91 := ⟨h3, h0, h1⟩
  unfold beforeRead at h' h3'
  unfold asciiAndKeyCode readOutcome beforeRead
  simp only []
  rw [if_neg h', if_pos h3']
  split_ifs <;> exact ⟨rfl, rfl⟩

lemma asciiAndKeyCode_other (h : (readOutcome ops tty).err = none)
    (h1 : (readOutcome ops tty).numRead ≠ 1)
    (h3 : ¬ ((readOutcome ops tty).numRead = 3 ∧ (readOutcome ops tty).bytes 0 = 27 ∧
      (readOutcome ops tty).bytes 1 = 91)) :
    (asciiAndKeyCode ops tty).ascii = 0 ∧ (asciiAndKeyCode ops tty).keyCode = 0 := by
  have h' : ¬ (ops.Read (beforeRead ops tty).t (fun _ => 0)).1.err ≠ none := not_not.mpr h
  have h1' : ¬ (ops.Read (beforeRead ops tty).t (fun _ => 0)).1.numRead = 1 := h1
  have h3' : ¬ ((ops.Read (beforeRead ops tty).t (fun _ => 0)).1.numRead = 3 ∧
      (ops.Read (beforeRead ops tty).t (fun _ => 0)).1.bytes 0 = 27 ∧
      (ops.Read (beforeRead ops tty).t (fun _ => 0)).1.bytes 1 = 91) := h3
  unfold beforeRead at h' h1' h3'
  unfold asciiAndKeyCode
  simp only []
  rw [if_neg h', if_neg h3', if_neg h1']
  exact ⟨rfl, rfl⟩

end Decoder

/-- On a scripted terminal the read of `asciiAndKeyCode` is the head of the
script. -/
lemma readOutcome_scripted (s : List ReadResult) (r : ReadResult) (rest : List ReadResult)
    (d : Int) : readOutcome (scripted s) ⟨r :: rest, d⟩ = r := rfl

/-- On a scripted terminal `asciiAndKeyCode` leaves the tail of the script and
the stored timeout. -/
lemma asciiAndKeyCode_tty_scripted (s : List ReadResult) (r : ReadResult)
    (rest : List ReadResult) (d : Int) :
    (asciiAndKeyCode (scripted s) ⟨r :: rest, d⟩).tty = ⟨rest, d⟩ := by
  unfold asciiAndKeyCode
  simp only []
  split_ifs <;> rfl

/-! ## `Key` in terms of the decoder -/

section KeyLemmas

variable (ops : TermOps σ) (f : Int) (tty : TTY σ)

lemma Key_tty : (Key ops f tty).tty = afterRead ops tty := by
  unfold Key
  simp only []
  split_ifs <;> exact asciiAndKeyCode_tty ops tty

lemma Key_ret_eq_lastKey : (Key ops f tty).ret = (Key ops f tty).lastKey := by
  unfold Key
  simp only []
  split_ifs <;> rfl

lemma Key_ret_eq_old (h : (Key ops f tty).ret = f) : (Key ops f tty).ret = 0 := by
  unfold Key at h ⊢
  simp only [] at h ⊢
  split_ifs at h ⊢ with h1 h2 h3 h4
  · rfl
  · rfl
  · exact absurd h h3
  · rfl
  · exact absurd h h4

lemma Key_of_err (h : (asciiAndKeyCode ops tty).err ≠ none) :
    Key ops f tty = ⟨0, 0, afterRead ops tty⟩ := by
  unfold Key
  simp only []
  rw [if_pos h, asciiAndKeyCode_tty]

lemma Key_of_ok (h : (asciiAndKeyCode ops tty).err = none) :
    Key ops f tty =
      if (if (asciiAndKeyCode ops tty).keyCode ≠ 0 then (asciiAndKeyCode ops tty).keyCode
          else (asciiAndKeyCode ops tty).ascii) = f
      then ⟨0, 0, afterRead ops tty⟩
      else ⟨if (asciiAndKeyCode ops tty).keyCode ≠ 0 then (asciiAndKeyCode ops tty).keyCode
              else (asciiAndKeyCode ops tty).ascii,
            if (asciiAndKeyCode ops tty).keyCode ≠ 0 then (asciiAndKeyCode ops tty).keyCode
              else (asciiAndKeyCode ops tty).ascii,
            afterRead ops tty⟩ := by
  unfold Key
  simp only []
  rw [if_neg (not_not.mpr h), asciiAndKeyCode_tty]
  by_cases hk : (asciiAndKeyCode ops tty).keyCode ≠ 0
  · rw [if_pos hk, if_pos hk]
  · rw [if_neg hk, if_neg hk]

end KeyLemmas

lemma asciiAndKeyCode_not_key (ops : TermOps σ) (tty : TTY σ)
    (herr : (readOutcome ops tty).err = none)
    (h1 : (readOutcome ops tty).numRead ≠ 1)
    (harrow : ¬ isArrow (readOutcome ops tty)) :
    (asciiAndKeyCode ops tty).ascii = 0 ∧
    (asciiAndKeyCode ops tty).keyCode = 0 ∧
    (asciiAndKeyCode ops tty).err = none := by
  refine ⟨?_, ?_, (asciiAndKeyCode_err ops tty).trans herr⟩
  · by_cases hp : (readOutcome ops tty).numRead = 3 ∧ (readOutcome ops tty).bytes 0 = 27 ∧
        (readOutcome ops tty).bytes 1 = 91
    · exact (asciiAndKeyCode_csi ops tty herr hp.1 hp.2.1 hp.2.2).1
    · exact (asciiAndKeyCode_other ops tty herr h1 hp).1
  · by_cases hp : (readOutcome ops tty).numRead = 3 ∧ (readOutcome ops tty).bytes 0 = 27 ∧
        (readOutcome ops tty).bytes 1 = 91
    · rw [(asciiAndKeyCode_csi ops tty herr hp.1 hp.2.1 hp.2.2).2]
      have h65 : ¬ (readOutcome ops tty).bytes 2 = 65 :=
        fun h => harrow ⟨hp.1, hp.2.1, hp.2.2, Or.inl h⟩
      have h66 : ¬ (readOutcome ops tty).bytes 2 = 66 :=
        fun h => harrow ⟨hp.1, hp.2.1, hp.2.2, Or.inr (Or.inl h)⟩
      have h67 : ¬ (readOutcome ops tty).bytes 2 = 67 :=
        fun h => harrow ⟨hp.1, hp.2.1, hp.2.2, Or.inr (Or.inr (Or.inl h))⟩
      have h68 : ¬ (readOutcome ops tty).bytes 2 = 68 :=
        fun h => harrow ⟨hp.1, hp.2.1, hp.2.2, Or.inr (Or.inr (Or.inr h))⟩
      rw [if_neg h65, if_neg h66, if_neg h67, if_neg h68]
    · exact (asciiAndKeyCode_other ops tty herr h1 hp).2

/-! ## Sequences of `Key` calls -/

lemma keyRun_length (ops : TermOps σ) :
    ∀ (n : Nat) (f : Int) (tty : TTY σ), (keyRun ops n f tty).length = n
  | 0, _, _ => rfl
  | n + 1, f, tty => by
    show (keyRun ops n (Key ops f tty).lastKey (Key ops f tty).tty).length + 1 = n + 1
    rw [keyRun_length ops n]

lemma keyRun_chain (ops : TermOps σ) :
    ∀ (n : Nat) (f : Int) (tty : TTY σ),
      List.Chain (fun a b : Int => a = b → a = 0) f (keyRun ops n f tty)
  | 0, _, _ => List.Chain.nil
  | n + 1, f, tty => by
    show List.Chain _ f ((Key ops f tty).ret ::
      keyRun ops n (Key ops f tty).lastKey (Key ops f tty).tty)
    refine List.Chain.cons ?_ ?_
    · intro h
      rw [h]
      exact Key_ret_eq_old ops f tty h.symm
    · rw [Key_ret_eq_lastKey ops f tty]
      exact keyRun_chain ops n _ _

lemma waitLoop_first_stop (ops : TermOps σ) :
    ∀ (n : Nat) (f : Int) (r : TTY σ) (k : Int),
      (∀ x ∈ keyRun ops n f r, ¬ isStop x) →
      (keyRun ops (n + 1) f r)[n]? = some k → isStop k →
      (∀ fuel, n < fuel → waitLoop ops fuel f r = some (keyState ops (n + 1) f r)) ∧
      (∀ fuel, fuel ≤ n → waitLoop ops fuel f r = none)
  | 0, f, r, k, _, hk, hstop => by
    have hk' : (Key ops f r).ret = k := by
      simpa [keyRun] using hk
    refine ⟨?_, ?_⟩
    · intro fuel hfuel
      obtain ⟨m, rfl⟩ : ∃ m, fuel = m + 1 := ⟨fuel - 1, by omega⟩
      have hs : (Key ops f r).ret = 27 ∨ (Key ops f r).ret = 13 ∨ (Key ops f r).ret = 32 := by
        rw [hk']; exact hstop
      unfold waitLoop
      simp only []
      rw [if_pos hs]
      rfl
    · intro fuel hfuel
      obtain rfl : fuel = 0 := by omega
      rfl
  | n + 1, f, r, k, hpre, hk, hstop => by
    have hns : ¬ ((Key ops f r).ret = 27 ∨ (Key ops f r).ret = 13 ∨ (Key ops f r).ret = 32) :=
      hpre (Key ops f r).ret (by simp [keyRun])
    have hpre' : ∀ x ∈ keyRun ops n (Key ops f r).lastKey (Key ops f r).tty, ¬ isStop x :=
      fun x hx => hpre x (by simp [keyRun, hx])
    have hk' : (keyRun ops (n + 1) (Key ops f r).lastKey (Key ops f r).tty)[n]? = some k := by
      have : keyRun ops (n + 1 + 1) f r = (Key ops f r).ret ::
          keyRun ops (n + 1) (Key ops f r).lastKey (Key ops f r).tty := rfl
      rw [this, List.getElem?_cons_succ] at hk
      exact hk
    obtain ⟨ih1, ih2⟩ := waitLoop_first_stop ops n _ _ k hpre' hk' hstop
    refine ⟨?_, ?_⟩
    · intro fuel hfuel
      obtain ⟨m, rfl⟩ : ∃ m, fuel = m + 1 := ⟨fuel - 1, by omega⟩
      have : waitLoop ops (m + 1) f r =
          waitLoop ops m (Key ops f r).lastKey (Key ops f r).tty := by
        conv_lhs => unfold waitLoop
        simp only []
        rw [if_neg hns]
      rw [this, ih1 m (by omega)]
      rfl
    · intro fuel hfuel
      rcases fuel with _ | m
      · rfl
      · have : waitLoop ops (m + 1) f r =
            waitLoop ops m (Key ops f r).lastKey (Key ops f r).tty := by
          conv_lhs => unfold waitLoop
          simp only []
          rw [if_neg hns]
        rw [this, ih2 m (by omega)]

/-! ## `Key` on a scripted terminal -/

lemma Key_scripted_byte (s : List ReadResult) (f : Int) (r : ReadResult)
    (rest : List ReadResult) (d : Int) (herr : r.err = none) (h1 : r.numRead = 1) :
    Key (scripted s) f ⟨r :: rest, d⟩ =
      if ((r.bytes 0).val : Int) = f then ⟨0, 0, ⟨rest, d⟩⟩
      else ⟨((r.bytes 0).val : Int), ((r.bytes 0).val : Int), ⟨rest, d⟩⟩ := by
  have hro : readOutcome (scripted s) ⟨r :: rest, d⟩ = r := rfl
  have hd := asciiAndKeyCode_one (scripted s) ⟨r :: rest, d⟩ (by rw [hro]; exact herr)
    (by rw [hro]; exact h1)
  rw [hro] at hd
  have he : (asciiAndKeyCode (scripted s) ⟨r :: rest, d⟩).err = none := by
    rw [asciiAndKeyCode_err, hro]; exact herr
  rw [Key_of_ok _ f _ he, hd.1, hd.2]
  rfl

lemma Key_scripted_csi (s : List ReadResult) (f : Int) (c : Byte) (code : Int)
    (rest : List ReadResult) (d : Int)
    (hc : (asciiAndKeyCode (scripted s) ⟨csi c :: rest, d⟩).keyCode = code)
    (hcode : code ≠ 0) :
    Key (scripted s) f ⟨csi c :: rest, d⟩ =
      if code = f then ⟨0, 0, ⟨rest, d⟩⟩ else ⟨code, code, ⟨rest, d⟩⟩ := by
  have he : (asciiAndKeyCode (scripted s) ⟨csi c :: rest, d⟩).err = none := by
    rw [asciiAndKeyCode_err]; rfl
  rw [Key_of_ok _ f _ he, hc, if_pos hcode]
  rfl

/-! ## The decoder -/

/-- C1. A successful read of exactly three bytes `27, 91, c` makes
`asciiAndKeyCode` return no error, `ascii = 0`, and `keyCode = 38` for
`c = 65` (Up), `40` for `c = 66` (Down), `39` for `c = 67` (Right) and `37`
for `c = 68` (Left). -/
theorem asciiAndKeyCode_arrows (ops : TermOps σ) (tty : TTY σ)
    (herr : (readOutcome ops tty).err = none)
    (h3 : (readOutcome ops tty).numRead = 3)
    (h0 : (readOutcome ops tty).bytes 0 = 27)
    (h1 : (readOutcome ops tty).bytes 1 = 91) :
    (asciiAndKeyCode ops tty).err = none ∧
    (asciiAndKeyCode ops tty).ascii = 0 ∧
    ((readOutcome ops tty).bytes 2 = 65 → (asciiAndKeyCode ops tty).keyCode = 38) ∧
    ((readOutcome ops tty).bytes 2 = 66 → (asciiAndKeyCode ops tty).keyCode = 40) ∧
    ((readOutcome ops tty).bytes 2 = 67 → (asciiAndKeyCode ops tty).keyCode = 39) ∧
    ((readOutcome ops tty).bytes 2 = 68 → (asciiAndKeyCode ops tty).keyCode = 37) := by
  obtain ⟨ha, hk⟩ := asciiAndKeyCode_csi ops tty herr h3 h0 h1
  refine ⟨(asciiAndKeyCode_err ops tty).trans herr, ha, ?_, ?_, ?_, ?_⟩ <;>
    intro h2 <;> rw [hk, h2] <;> decide

/-- The four arrow sequences on a scripted terminal decode to 38, 40, 39, 37. -/
theorem asciiAndKeyCode_arrows_witness :
    (asciiAndKeyCode (scripted [csi 65]) (scriptTTY [csi 65])).keyCode = 38 ∧
    (asciiAndKeyCode (scripted [csi 66]) (scriptTTY [csi 66])).keyCode = 40 ∧
    (asciiAndKeyCode (scripted [csi 67]) (scriptTTY [csi 67])).keyCode = 39 ∧
    (asciiAndKeyCode (scripted [csi 68]) (scriptTTY [csi 68])).keyCode = 37 ∧
    (asciiAndKeyCode (scripted [csi 68]) (scriptTTY [csi 68])).ascii = 0 :=
  ⟨(asciiAndKeyCode_arrows (scripted [csi 65]) (scriptTTY [csi 65]) rfl rfl rfl rfl).2.2.1 rfl,
   (asciiAndKeyCode_arrows (scripted [csi 66]) (scriptTTY [csi 66]) rfl rfl rfl rfl).2.2.2.1 rfl,
   (asciiAndKeyCode_arrows (scripted [csi 67]) (scriptTTY [csi 67]) rfl rfl rfl rfl).2.2.2.2.1 rfl,
   (asciiAndKeyCode_arrows (scripted [csi 68]) (scriptTTY [csi 68]) rfl rfl rfl rfl).2.2.2.2.2 rfl,
   (asciiAndKeyCode_arrows (scripted [csi 68]) (scriptTTY [csi 68]) rfl rfl rfl rfl).2.1⟩

/-- C2. For every byte `b` (the Escape byte 27 included), a successful read
of exactly one byte `b` makes `asciiAndKeyCode` return `ascii = b`,
`keyCode = 0` and no error, whatever buffer positions 1 and 2 hold. -/
theorem asciiAndKeyCode_single_byte (ops : TermOps σ) (tty : TTY σ) (b : Byte)
    (herr : (readOutcome ops tty).err = none)
    (h1 : (readOutcome ops tty).numRead = 1)
    (hb : (readOutcome ops tty).bytes 0 = b) :
    (asciiAndKeyCode ops tty).ascii = (b.val : Int) ∧
    (asciiAndKeyCode ops tty).keyCode = 0 ∧
    (asciiAndKeyCode ops tty).err = none := by
  obtain ⟨ha, hk⟩ := asciiAndKeyCode_one ops tty herr h1
  exact ⟨by rw [ha, hb], hk, (asciiAndKeyCode_err ops tty).trans herr⟩

/-- A one-byte read of Escape decodes to ascii 27, also when the rest of the
buffer holds `91, 65`. -/
theorem asciiAndKeyCode_single_byte_witness :
    (asciiAndKeyCode (scripted [okRead 1 ![27, 91, 65]])
        (scriptTTY [okRead 1 ![27, 91, 65]])).ascii = 27 ∧
    (asciiAndKeyCode (scripted [okRead 1 ![27, 91, 65]])
        (scriptTTY [okRead 1 ![27, 91, 65]])).keyCode = 0 :=
  ⟨(asciiAndKeyCode_single_byte (scripted [okRead 1 ![27, 91, 65]])
      (scriptTTY [okRead 1 ![27, 91, 65]]) 27 rfl rfl rfl).1,
   (asciiAndKeyCode_single_byte (scripted [okRead 1 ![27, 91, 65]])
      (scriptTTY [okRead 1 ![27, 91, 65]]) 27 rfl rfl rfl).2.1⟩

/-- C3. Every successful read that is neither exactly one byte nor one of the
four arrow sequences `27, 91, 65..68` of length three makes `asciiAndKeyCode`
return `ascii = 0`, `keyCode = 0` and no error: zero bytes, any two-byte
read, any three-byte read not starting `27, 91`, and `27, 91, c` with `c`
outside `65..68`. -/
theorem asciiAndKeyCode_unrecognized (ops : TermOps σ) (tty : TTY σ)
    (herr : (readOutcome ops tty).err = none)
    (h1 : (readOutcome ops tty).numRead ≠ 1)
    (harrow : ¬ isArrow (readOutcome ops tty)) :
    (asciiAndKeyCode ops tty).ascii = 0 ∧
    (asciiAndKeyCode ops tty).keyCode = 0 ∧
    (asciiAndKeyCode ops tty).err = none :=
  asciiAndKeyCode_not_key ops tty herr h1 harrow

/-- The unsupported sequence `27, 91, 90`, a two-byte read, a timeout and a
three-byte read of plain letters all decode to `(0, 0)`. -/
theorem asciiAndKeyCode_unrecognized_witness :
    (asciiAndKeyCode (scripted [csi 90]) (scriptTTY [csi 90])).ascii = 0 ∧
    (asciiAndKeyCode (scripted [csi 90]) (scriptTTY [csi 90])).keyCode = 0 ∧
    (asciiAndKeyCode (scripted [okRead 2 ![27, 91, 0]])
        (scriptTTY [okRead 2 ![27, 91, 0]])).ascii = 0 ∧
    (asciiAndKeyCode (scripted [okRead 2 ![27, 91, 0]])
        (scriptTTY [okRead 2 ![27, 91, 0]])).keyCode = 0 ∧
    (asciiAndKeyCode (scripted []) (scriptTTY [])).ascii = 0 ∧
    (asciiAndKeyCode (scripted []) (scriptTTY [])).keyCode = 0 ∧
    (asciiAndKeyCode (scripted [okRead 3 ![97, 98, 99]])
        (scriptTTY [okRead 3 ![97, 98, 99]])).ascii = 0 :=
  ⟨(asciiAndKeyCode_unrecognized (scripted [csi 90]) (scriptTTY [csi 90])
      rfl (by decide) (by decide)).1,
   (asciiAndKeyCode_unrecognized (scripted [csi 90]) (scriptTTY [csi 90])
      rfl (by decide) (by decide)).2.1,
   (asciiAndKeyCode_unrecognized (scripted [okRead 2 ![27, 91, 0]])
      (scriptTTY [okRead 2 ![27, 91, 0]]) rfl (by decide) (by decide)).1,
   (asciiAndKeyCode_unrecognized (scripted [okRead 2 ![27, 91, 0]])
      (scriptTTY [okRead 2 ![27, 91, 0]]) rfl (by decide) (by decide)).2.1,
   (asciiAndKeyCode_unrecognized (scripted []) (scriptTTY [])
      rfl (by decide) (by decide)).1,
   (asciiAndKeyCode_unrecognized (scripted []) (scriptTTY [])
      rfl (by decide) (by decide)).2.1,
   (asciiAndKeyCode_unrecognized (scripted [okRead 3 ![97, 98, 99]])
      (scriptTTY [okRead 3 ![97, 98, 99]]) rfl (by decide) (by decide)).1⟩

/-- C4 fails as stated: a successful one-byte read of NUL returns
`ascii = 0` and `keyCode = 0`, so neither component is non-zero although the
read is neither a timeout nor an error. -/
theorem asciiAndKeyCode_nul_both_zero :
    (readOutcome (scripted [oneByte 0]) (scriptTTY [oneByte 0])).err = none ∧
    (readOutcome (scripted [oneByte 0]) (scriptTTY [oneByte 0])).numRead = 1 ∧
    (asciiAndKeyCode (scripted [oneByte 0]) (scriptTTY [oneByte 0])).err = none ∧
    (asciiAndKeyCode (scripted [oneByte 0]) (scriptTTY [oneByte 0])).ascii = 0 ∧
    (asciiAndKeyCode (scripted [oneByte 0]) (scriptTTY [oneByte 0])).keyCode = 0 ∧
    ¬ (((asciiAndKeyCode (scripted [oneByte 0]) (scriptTTY [oneByte 0])).ascii ≠ 0 ∧
        (asciiAndKeyCode (scripted [oneByte 0]) (scriptTTY [oneByte 0])).keyCode = 0) ∨
       ((asciiAndKeyCode (scripted [oneByte 0]) (scriptTTY [oneByte 0])).ascii = 0 ∧
        (asciiAndKeyCode (scripted [oneByte 0]) (scriptTTY [oneByte 0])).keyCode ≠ 0)) := by
  decide

/-- C4, amended. When the read is a keypress (`isKey`: successful, and one
byte other than NUL or one of the four arrow sequences) exactly one of
`ascii`, `keyCode` is non-zero; both are zero exactly when the read is not
such a keypress (an error, zero bytes, a single NUL byte, two bytes, any other
three-byte read, any other count). -/
theorem asciiAndKeyCode_exactly_one (ops : TermOps σ) (tty : TTY σ) :
    (isKey (readOutcome ops tty) →
      ((asciiAndKeyCode ops tty).ascii ≠ 0 ∧ (asciiAndKeyCode ops tty).keyCode = 0) ∨
      ((asciiAndKeyCode ops tty).ascii = 0 ∧ (asciiAndKeyCode ops tty).keyCode ≠ 0)) ∧
    (((asciiAndKeyCode ops tty).ascii = 0 ∧ (asciiAndKeyCode ops tty).keyCode = 0) ↔
      ¬ isKey (readOutcome ops tty)) := by
  have hkey : isKey (readOutcome ops tty) →
      ((asciiAndKeyCode ops tty).ascii ≠ 0 ∧ (asciiAndKeyCode ops tty).keyCode = 0) ∨
      ((asciiAndKeyCode ops tty).ascii = 0 ∧ (asciiAndKeyCode ops tty).keyCode ≠ 0) := by
    rintro ⟨herr, ⟨h1, hb⟩ | ⟨h3, h0, h1, h2⟩⟩
    · left
      obtain ⟨ha, hk⟩ := asciiAndKeyCode_one ops tty herr h1
      refine ⟨?_, hk⟩
      rw [ha]
      intro hz
      exact hb (Fin.ext (by exact_mod_cast hz))
    · right
      obtain ⟨ha, hk⟩ := asciiAndKeyCode_csi ops tty herr h3 h0 h1
      refine ⟨ha, ?_⟩
      rw [hk]
      rcases h2 with h2 | h2 | h2 | h2 <;> rw [h2] <;> decide
  refine ⟨hkey, ?_, ?_⟩
  · rintro ⟨ha, hk⟩ hK
    rcases hkey hK with ⟨hna, -⟩ | ⟨-, hnk⟩
    · exact hna ha
    · exact hnk hk
  · intro hK
    by_cases herr : (readOutcome ops tty).err = none
    · by_cases h1 : (readOutcome ops tty).numRead = 1
      · obtain ⟨ha, hk⟩ := asciiAndKeyCode_one ops tty herr h1
        refine ⟨?_, hk⟩
        rw [ha]
        by_cases hb : (readOutcome ops tty).bytes 0 = 0
        · rw [hb]; rfl
        · exact absurd ⟨herr, Or.inl ⟨h1, hb⟩⟩ hK
      · have hA : ¬ isArrow (readOutcome ops tty) := fun h => hK ⟨herr, Or.inr h⟩
        exact ⟨(asciiAndKeyCode_not_key ops tty herr h1 hA).1,
          (asciiAndKeyCode_not_key ops tty herr h1 hA).2.1⟩
    · exact asciiAndKeyCode_of_err ops tty herr

/-- The letter `a` and the Up arrow each give exactly one non-zero component;
a two-byte read gives none. -/
theorem asciiAndKeyCode_exactly_one_witness :
    (((asciiAndKeyCode (scripted [oneByte 97]) (scriptTTY [oneByte 97])).ascii ≠ 0 ∧
      (asciiAndKeyCode (scripted [oneByte 97]) (scriptTTY [oneByte 97])).keyCode = 0) ∨
     ((asciiAndKeyCode (scripted [oneByte 97]) (scriptTTY [oneByte 97])).ascii = 0 ∧
      (asciiAndKeyCode (scripted [oneByte 97]) (scriptTTY [oneByte 97])).keyCode ≠ 0)) ∧
    (((asciiAndKeyCode (scripted [csi 65]) (scriptTTY [csi 65])).ascii ≠ 0 ∧
      (asciiAndKeyCode (scripted [csi 65]) (scriptTTY [csi 65])).keyCode = 0) ∨
     ((asciiAndKeyCode (scripted [csi 65]) (scriptTTY [csi 65])).ascii = 0 ∧
      (asciiAndKeyCode (scripted [csi 65]) (scriptTTY [csi 65])).keyCode ≠ 0)) ∧
    ((asciiAndKeyCode (scripted [okRead 2 ![97, 98, 0]])
        (scriptTTY [okRead 2 ![97, 98, 0]])).ascii = 0 ∧
     (asciiAndKeyCode (scripted [okRead 2 ![97, 98, 0]])
        (scriptTTY [okRead 2 ![97, 98, 0]])).keyCode = 0) :=
  ⟨(asciiAndKeyCode_exactly_one (scripted [oneByte 97]) (scriptTTY [oneByte 97])).1
      ⟨rfl, Or.inl ⟨rfl, by decide⟩⟩,
   (asciiAndKeyCode_exactly_one (scripted [csi 65]) (scriptTTY [csi 65])).1
      ⟨rfl, Or.inr ⟨rfl, rfl, rfl, Or.inl rfl⟩⟩,
   (asciiAndKeyCode_exactly_one (scripted [okRead 2 ![97, 98, 0]])
      (scriptTTY [okRead 2 ![97, 98, 0]])).2.2
      (fun h => h.2.elim (fun h1 => absurd h1.1 (by decide)) (fun h3 => absurd h3.1 (by decide)))⟩

/-! ## Read errors -/

/-- C5. When the read returns an error, whatever count and buffer come with
it, `asciiAndKeyCode` returns `ascii = 0` and `keyCode = 0` (and hands the
error on), `ASCII()`, `KeyCode()` and `Key()` each return 0, and `Key()`
leaves `lastKey = 0` for every previous value `f` of `lastKey`. -/
theorem read_error_gives_zero (ops : TermOps σ) (tty : TTY σ) (f : Int)
    (herr : (readOutcome ops tty).err ≠ none) :
    (asciiAndKeyCode ops tty).ascii = 0 ∧
    (asciiAndKeyCode ops tty).keyCode = 0 ∧
    (asciiAndKeyCode ops tty).err = (readOutcome ops tty).err ∧
    (ASCII ops tty).1 = 0 ∧
    (KeyCode ops tty).1 = 0 ∧
    (Key ops f tty).ret = 0 ∧
    (Key ops f tty).lastKey = 0 := by
  have he : (asciiAndKeyCode ops tty).err ≠ none := by
    rw [asciiAndKeyCode_err]; exact herr
  refine ⟨(asciiAndKeyCode_of_err ops tty herr).1, (asciiAndKeyCode_of_err ops tty herr).2,
    asciiAndKeyCode_err ops tty, ?_, ?_, ?_, ?_⟩
  · unfold ASCII
    simp only []
    rw [if_pos he]
  · unfold KeyCode
    simp only []
    rw [if_pos he]
  · rw [Key_of_err ops f tty he]
  · rw [Key_of_err ops f tty he]

/-- A failed read that reports three bytes holding the Up sequence still
gives 0 everywhere, and `Key()` resets `lastKey` from 38 to 0. -/
theorem read_error_gives_zero_witness :
    (asciiAndKeyCode (scripted [⟨3, ![27, 91, 65], some "EIO"⟩])
        (scriptTTY [⟨3, ![27, 91, 65], some "EIO"⟩])).keyCode = 0 ∧
    (KeyCode (scripted [⟨3, ![27, 91, 65], some "EIO"⟩])
        (scriptTTY [⟨3, ![27, 91, 65], some "EIO"⟩])).1 = 0 ∧
    (Key (scripted [⟨3, ![27, 91, 65], some "EIO"⟩]) 38
        (scriptTTY [⟨3, ![27, 91, 65], some "EIO"⟩])).lastKey = 0 :=
  ⟨(read_error_gives_zero (scripted [⟨3, ![27, 91, 65], some "EIO"⟩])
      (scriptTTY [⟨3, ![27, 91, 65], some "EIO"⟩]) 38 (Option.some_ne_none _)).2.1,
   (read_error_gives_zero (scripted [⟨3, ![27, 91, 65], some "EIO"⟩])
      (scriptTTY [⟨3, ![27, 91, 65], some "EIO"⟩]) 38 (Option.some_ne_none _)).2.2.2.2.1,
   (read_error_gives_zero (scripted [⟨3, ![27, 91, 65], some "EIO"⟩])
      (scriptTTY [⟨3, ![27, 91, 65], some "EIO"⟩]) 38 (Option.some_ne_none _)).2.2.2.2.2.2⟩

/-! ## The repeat filter -/

/-- C6. For every terminal behaviour (so every sequence of read outcomes:
counts, bytes and errors), every initial `lastKey` and every number `n` of
successive `Key()` calls, the list of the `n` returned values never has the
same non-zero value at two adjacent positions: adjacent equal values are 0. -/
theorem Key_no_adjacent_repeat (ops : TermOps σ) (n : Nat) (f : Int) (tty : TTY σ) :
    (keyRun ops n f tty).length = n ∧
    List.Chain' (fun a b : Int => a = b → a = 0) (keyRun ops n f tty) := by
  refine ⟨keyRun_length ops n f tty, ?_⟩
  have h : List.Chain' (fun a b : Int => a = b → a = 0) (f :: keyRun ops n f tty) :=
    keyRun_chain ops n f tty
  exact h.tail

/-- C7. For every filter value `f` and every successful read, with
`k = keyOf` of the decoded pair (`keyCode` if non-zero, else `ascii`),
`Key()` returns 0 and sets `lastKey = 0` when `k = f`, and otherwise returns
`k` and sets `lastKey = k`.  Ascii and arrow codes share the filter: when
`Key()` returns 37 for a Left arrow (any filter `f ≠ 37`), a single byte 37
read next is suppressed. -/
theorem Key_filter :
    (∀ (τ : Type) (ops : TermOps τ) (f : Int) (tty : TTY τ), (readOutcome ops tty).err = none →
      Key ops f tty =
        if keyOf (asciiAndKeyCode ops tty) = f then ⟨0, 0, afterRead ops tty⟩
        else ⟨keyOf (asciiAndKeyCode ops tty), keyOf (asciiAndKeyCode ops tty),
              afterRead ops tty⟩) ∧
    (∀ (s rest : List ReadResult) (d f : Int), f ≠ 37 →
      keyRun (scripted s) 2 f ⟨csi 68 :: oneByte 37 :: rest, d⟩ = [37, 0] ∧
      keyState (scripted s) 2 f ⟨csi 68 :: oneByte 37 :: rest, d⟩ = (0, ⟨rest, d⟩)) := by
  refine ⟨?_, ?_⟩
  · intro τ ops f tty herr
    have he : (asciiAndKeyCode ops tty).err = none := by
      rw [asciiAndKeyCode_err]; exact herr
    exact Key_of_ok ops f tty he
  · intro s rest d f hf
    have h1 : Key (scripted s) f ⟨csi 68 :: oneByte 37 :: rest, d⟩ =
        ⟨37, 37, ⟨oneByte 37 :: rest, d⟩⟩ := by
      rw [Key_scripted_csi s f 68 37 _ d rfl (by decide), if_neg (Ne.symm hf)]
    have h2 : Key (scripted s) 37 ⟨oneByte 37 :: rest, d⟩ = ⟨0, 0, ⟨rest, d⟩⟩ := by
      rw [Key_scripted_byte s 37 (oneByte 37) rest d rfl rfl]
      rfl
    refine ⟨?_, ?_⟩
    · show [(Key (scripted s) f ⟨csi 68 :: oneByte 37 :: rest, d⟩).ret,
        (Key (scripted s) (Key (scripted s) f ⟨csi 68 :: oneByte 37 :: rest, d⟩).lastKey
          (Key (scripted s) f ⟨csi 68 :: oneByte 37 :: rest, d⟩).tty).ret] = [37, 0]
      rw [h1, h2]
    · show ((Key (scripted s) (Key (scripted s) f ⟨csi 68 :: oneByte 37 :: rest, d⟩).lastKey
          (Key (scripted s) f ⟨csi 68 :: oneByte 37 :: rest, d⟩).tty).lastKey,
        (Key (scripted s) (Key (scripted s) f ⟨csi 68 :: oneByte 37 :: rest, d⟩).lastKey
          (Key (scripted s) f ⟨csi 68 :: oneByte 37 :: rest, d⟩).tty).tty) = (0, ⟨rest, d⟩)
      rw [h1, h2]

/-- With filter 97 the letter `a` is suppressed and the filter reset; with
filter 0 a Left arrow followed by the byte 37 gives 37 then 0. -/
theorem Key_filter_witness :
    Key (scripted [oneByte 97]) 97 (scriptTTY [oneByte 97]) = ⟨0, 0, scriptTTY []⟩ ∧
    Key (scripted [oneByte 97]) 98 (scriptTTY [oneByte 97]) = ⟨97, 97, scriptTTY []⟩ ∧
    keyRun (scripted []) 2 0 ⟨[csi 68, oneByte 37], defaultTimeout⟩ = [37, 0] :=
  ⟨(Key_filter.1 _ (scripted [oneByte 97]) 97 (scriptTTY [oneByte 97]) rfl).trans (by decide),
   (Key_filter.1 _ (scripted [oneByte 97]) 98 (scriptTTY [oneByte 97]) rfl).trans (by decide),
   (Key_filter.2 [] [] defaultTimeout 0 (by decide)).1⟩

/-- C8. From `lastKey = 0`, three consecutive `Key()` calls that each read the
same non-zero key return it, then 0, then it again: for every non-zero byte
`b` read as a single byte (whatever the unread buffer positions hold) and for
each of the four arrow sequences.  The Left arrow sequence read twice returns
37 and then 0. -/
theorem Key_three_presses (s rest : List ReadResult) (d : Int) :
    (∀ (b : Byte) (r1 r2 r3 : ReadResult), b ≠ 0 →
      r1.err = none → r1.numRead = 1 → r1.bytes 0 = b →
      r2.err = none → r2.numRead = 1 → r2.bytes 0 = b →
      r3.err = none → r3.numRead = 1 → r3.bytes 0 = b →
      keyRun (scripted s) 3 0 ⟨r1 :: r2 :: r3 :: rest, d⟩ = [(b.val : Int), 0, (b.val : Int)]) ∧
    keyRun (scripted s) 3 0 ⟨csi 65 :: csi 65 :: csi 65 :: rest, d⟩ = [38, 0, 38] ∧
    keyRun (scripted s) 3 0 ⟨csi 66 :: csi 66 :: csi 66 :: rest, d⟩ = [40, 0, 40] ∧
    keyRun (scripted s) 3 0 ⟨csi 67 :: csi 67 :: csi 67 :: rest, d⟩ = [39, 0, 39] ∧
    keyRun (scripted s) 3 0 ⟨csi 68 :: csi 68 :: csi 68 :: rest, d⟩ = [37, 0, 37] ∧
    keyRun (scripted s) 2 0 ⟨csi 68 :: csi 68 :: rest, d⟩ = [37, 0] := by
  have arrow : ∀ (c : Byte) (code : Int) (tl : List ReadResult), code ≠ 0 →
      (∀ tl1 : List ReadResult,
        (asciiAndKeyCode (scripted s) ⟨csi c :: tl1, d⟩).keyCode = code) →
      keyRun (scripted s) 2 0 ⟨csi c :: csi c :: tl, d⟩ = [code, 0] ∧
      keyRun (scripted s) 3 0 ⟨csi c :: csi c :: csi c :: tl, d⟩ = [code, 0, code] := by
    intro c code tl hcode hc
    have k1 : ∀ tl1 : List ReadResult,
        Key (scripted s) 0 ⟨csi c :: tl1, d⟩ = ⟨code, code, ⟨tl1, d⟩⟩ := by
      intro tl1
      rw [Key_scripted_csi s 0 c code tl1 d (hc tl1) hcode, if_neg hcode]
    have k2 : ∀ tl1 : List ReadResult,
        Key (scripted s) code ⟨csi c :: tl1, d⟩ = ⟨0, 0, ⟨tl1, d⟩⟩ := by
      intro tl1
      rw [Key_scripted_csi s code c code tl1 d (hc tl1) hcode, if_pos rfl]
    refine ⟨?_, ?_⟩
    · simp only [keyRun, k1, k2]
    · simp only [keyRun, k1, k2]
  refine ⟨?_, (arrow 65 38 rest (by decide) (fun _ => rfl)).2,
    (arrow 66 40 rest (by decide) (fun _ => rfl)).2,
    (arrow 67 39 rest (by decide) (fun _ => rfl)).2,
    (arrow 68 37 rest (by decide) (fun _ => rfl)).2,
    (arrow 68 37 rest (by decide) (fun _ => rfl)).1⟩
  intro b r1 r2 r3 hb e1 n1 b1 e2 n2 b2 e3 n3 b3
  have hbz : ((b.val : Nat) : Int) ≠ 0 := by
    intro hz
    exact hb (Fin.ext (by exact_mod_cast hz))
  have k1 : Key (scripted s) 0 ⟨r1 :: r2 :: r3 :: rest, d⟩ =
      ⟨(b.val : Int), (b.val : Int), ⟨r2 :: r3 :: rest, d⟩⟩ := by
    rw [Key_scripted_byte s 0 r1 _ d e1 n1, b1, if_neg hbz]
  have k2 : Key (scripted s) (b.val : Int) ⟨r2 :: r3 :: rest, d⟩ =
      ⟨0, 0, ⟨r3 :: rest, d⟩⟩ := by
    rw [Key_scripted_byte s _ r2 _ d e2 n2, b2, if_pos rfl]
  have k3 : Key (scripted s) 0 ⟨r3 :: rest, d⟩ =
      ⟨(b.val : Int), (b.val : Int), ⟨rest, d⟩⟩ := by
    rw [Key_scripted_byte s 0 r3 _ d e3 n3, b3, if_neg hbz]
  simp only [keyRun, k1, k2, k3]

/-- The letter `a` pressed three times gives 97, 0, 97, also with different
leftovers in the buffer; Left pressed twice gives 37, 0. -/
theorem Key_three_presses_witness :
    keyRun (scripted []) 3 0
      ⟨[okRead 1 ![97, 0, 0], okRead 1 ![97, 5, 0], okRead 1 ![97, 0, 9]], defaultTimeout⟩
      = [97, 0, 97] ∧
    keyRun (scripted []) 2 0 ⟨[csi 68, csi 68], defaultTimeout⟩ = [37, 0] :=
  ⟨(Key_three_presses [] [] defaultTimeout).1 97
      (okRead 1 ![97, 0, 0]) (okRead 1 ![97, 5, 0]) (okRead 1 ![97, 0, 9])
      (by decide) rfl rfl rfl rfl rfl rfl rfl rfl rfl,
   (Key_three_presses [] [] defaultTimeout).2.2.2.2.2⟩

/-! ## `SetTimeout` -/

/-- C9 fails as stated: `SetTimeout` with the negative duration `-1` on a
freshly opened handle stores `-1`, so the stored timeout is not left
unchanged (and the method has no error result). -/
theorem SetTimeout_negative_stored :
    (-1 : Int) < 0 ∧
    (SetTimeout (scripted []) (scriptTTY []) (-1)).timeout = -1 ∧
    (SetTimeout (scripted []) (scriptTTY []) (-1)).timeout ≠ (scriptTTY []).timeout := by
  decide

/-- C9, amended. `SetTimeout(d)` sets the stored timeout to `d` for every
duration `d`, negative ones included, and hands `d` to the terminal's
`SetReadTimeout`; it rejects nothing. -/
theorem SetTimeout_stores (ops : TermOps σ) (tty : TTY σ) (d : Int) :
    (SetTimeout ops tty d).timeout = d ∧
    (SetTimeout ops tty d).t = ops.SetReadTimeout tty.t d :=
  ⟨rfl, rfl⟩

/-! ## `WaitForKey` -/

/-- C10 fails as stated: with filter `lastKey = 13`, a first read delivering
the single byte `0x0D` is suppressed (`Key()` returns 0), the loop is still
running after that one read, and `WaitForKey` returns only after consuming the
next read (a space). -/
theorem WaitForKey_filter13_not_prompt :
    (Key (scripted [oneByte 13, oneByte 32]) 13 (scriptTTY [oneByte 13, oneByte 32])).ret = 0 ∧
    WaitForKey (scripted [oneByte 13, oneByte 32]) 1 13 = .running ∧
    WaitForKey (scripted [oneByte 13, oneByte 32]) 2 13 = .returned 32 (scriptTTY []) := by
  decide

/-- C10, amended. Once the TTY is open, if the first `n` results of `Key()`
are none of 27, 13, 32 and result `n + 1` is one of them, `WaitForKey` returns
(for any fuel above `n`) in exactly the state after those `n + 1` calls, the
handle closed, and is still running after `n` iterations or fewer.  For every
filter `f ≠ 13`, when the first read delivers the single byte `0x0D` it
returns after that one read with the rest of the script unread. -/
theorem WaitForKey_returns_at_first_stop :
    (∀ (τ : Type) (ops : TermOps τ) (f : Int) (r : TTY τ) (n : Nat) (k : Int),
      NewTTY ops = .ok r →
      (∀ x ∈ keyRun ops n f r, ¬ isStop x) →
      (keyRun ops (n + 1) f r)[n]? = some k → isStop k →
      (∀ fuel, n < fuel → WaitForKey ops fuel f =
        .returned (keyState ops (n + 1) f r).1 (Close ops (keyState ops (n + 1) f r).2)) ∧
      (∀ fuel, fuel ≤ n → WaitForKey ops fuel f = .running)) ∧
    (∀ (f : Int) (r : ReadResult) (rest : List ReadResult) (fuel : Nat),
      f ≠ 13 → r.err = none → r.numRead = 1 → r.bytes 0 = 13 → 0 < fuel →
      WaitForKey (scripted (r :: rest)) fuel f = .returned 13 ⟨rest, defaultTimeout⟩) := by
  refine ⟨?_, ?_⟩
  · intro τ ops f r n k hopen hpre hk hstop
    obtain ⟨h1, h2⟩ := waitLoop_first_stop ops n f r k hpre hk hstop
    refine ⟨?_, ?_⟩
    · intro fuel hfuel
      unfold WaitForKey
      rw [hopen]
      simp only []
      rw [h1 fuel hfuel]
    · intro fuel hfuel
      unfold WaitForKey
      rw [hopen]
      simp only []
      rw [h2 fuel hfuel]
  · intro f r rest fuel hf herr h1 hb hfuel
    obtain ⟨m, rfl⟩ : ∃ m, fuel = m + 1 := ⟨fuel - 1, by omega⟩
    have hK : Key (scripted (r :: rest)) f ⟨r :: rest, defaultTimeout⟩ =
        ⟨13, 13, ⟨rest, defaultTimeout⟩⟩ := by
      rw [Key_scripted_byte _ f r rest _ herr h1, hb]
      exact if_neg (Ne.symm hf)
    have hL : waitLoop (scripted (r :: rest)) (m + 1) f ⟨r :: rest, defaultTimeout⟩ =
        some (13, ⟨rest, defaultTimeout⟩) := by
      unfold waitLoop
      simp only []
      rw [hK]
      rfl
    have hN : NewTTY (scripted (r :: rest)) = .ok ⟨r :: rest, defaultTimeout⟩ := rfl
    unfold WaitForKey
    rw [hN]
    simp only []
    rw [hL]
    rfl

/-- On the script `a`, Return, `b` with filter 0, `WaitForKey` returns after
the second read and leaves `b` unread; it is still running after one
iteration. -/
theorem WaitForKey_returns_at_first_stop_witness :
    WaitForKey (scripted [oneByte 97, oneByte 13, oneByte 98]) 5 0
      = .returned 13 (scriptTTY [oneByte 98]) ∧
    WaitForKey (scripted [oneByte 97, oneByte 13, oneByte 98]) 1 0 = .running ∧
    WaitForKey (scripted [oneByte 13, oneByte 98]) 1 32 = .returned 13 (scriptTTY [oneByte 98]) :=
  ⟨((WaitForKey_returns_at_first_stop.1 _ (scripted [oneByte 97, oneByte 13, oneByte 98]) 0
      (scriptTTY [oneByte 97, oneByte 13, oneByte 98]) 1 13 rfl (by decide) rfl
      (by decide)).1 5 (by decide)).trans (by decide),
   (WaitForKey_returns_at_first_stop.1 _ (scripted [oneByte 97, oneByte 13, oneByte 98]) 0
      (scriptTTY [oneByte 97, oneByte 13, oneByte 98]) 1 13 rfl (by decide) rfl
      (by decide)).2 1 (by decide),
   WaitForKey_returns_at_first_stop.2 32 (oneByte 13) [oneByte 98] 1
      (by decide) rfl rfl rfl (by decide)⟩

end Vt100
